import Mathlib

/-!
Verification of the terminal-emulation core of `script-kit-gpui`.

The first part embeds, directly from the Rust source, the three concrete
types of `src/terminal/`: `TerminalHandle` (alacritty.rs), `PtyManager`
(pty.rs) and `ThemeAdapter` (theme_adapter.rs).  In the source,
`TerminalHandle::process` and both `resize` methods are TODO stubs:
`process` has an empty body and `resize` unconditionally stores the new
size, so the embedding mirrors exactly that.  Machine integers (`u16`,
`u32`, `usize`) are embedded as `Nat`: the code only stores and returns
them, it never computes with them, so no overflow is reachable.

The second part models, from the specification's words, the parts of the
terminal core that the source leaves unimplemented (the escape-sequence
parser state machine, the grid, the scrollback ring); those definitions
carry a `Modelled from the spec` doc comment.
-/

namespace SK

/-- Embedding of `TerminalHandle` (src/terminal/alacritty.rs): a pair of
terminal dimensions `(cols, rows)` and a scrollback capacity in lines. -/
structure TerminalHandle where
  size : Nat × Nat
  scrollback_lines : Nat
deriving DecidableEq

/-- Embedding of `TerminalHandle::with_scrollback`. -/
def TerminalHandle.with_scrollback (cols rows : Nat) (scrollback_lines : Nat) : TerminalHandle :=
  { size := (cols, rows), scrollback_lines := scrollback_lines }

/-- Embedding of `TerminalHandle::new`: default scrollback of 10,000 lines. -/
def TerminalHandle.new (cols rows : Nat) : TerminalHandle :=
  TerminalHandle.with_scrollback cols rows 10000

/-- Embedding of `TerminalHandle::process`: the source body is a TODO stub
(`// TODO: Implement VTE parsing and grid updates`), so the handle is
returned unchanged for every input. -/
def TerminalHandle.process (h : TerminalHandle) (_data : List Nat) : TerminalHandle :=
  h

/-- Embedding of `TerminalHandle::resize`: the source unconditionally stores
the new dimensions (`self.size = (cols, rows)`); the reflow is a TODO stub. -/
def TerminalHandle.resize (h : TerminalHandle) (cols rows : Nat) : TerminalHandle :=
  { h with size := (cols, rows) }

/-- Embedding of `impl Default for TerminalHandle`: `Self::new(80, 24)`. -/
def TerminalHandle.default : TerminalHandle :=
  TerminalHandle.new 80 24

/-- Embedding of `PtyManager` (src/terminal/pty.rs): the stub holds only the
terminal dimensions `(cols, rows)`. -/
structure PtyManager where
  size : Nat × Nat
deriving DecidableEq

/-- Embedding of `PtyManager::new`: `Ok(Self { size: (80, 24) })`.  The Rust
return type `io::Result` is embedded as `Except String`. -/
def PtyManager.new : Except String PtyManager :=
  Except.ok { size := (80, 24) }

/-- Embedding of `PtyManager::with_size`: `Ok(Self { size: (cols, rows) })`. -/
def PtyManager.with_size (cols rows : Nat) : Except String PtyManager :=
  Except.ok { size := (cols, rows) }

/-- Embedding of `PtyManager::resize`: the source stores the new size and
returns `Ok(())`; the `Ok` payload here carries the updated manager state. -/
def PtyManager.resize (p : PtyManager) (cols rows : Nat) : Except String PtyManager :=
  Except.ok { p with size := (cols, rows) }

/-- Embedding of `ThemeAdapter` (src/terminal/theme_adapter.rs): five
`0xRRGGBB` colors. -/
structure ThemeAdapter where
  background : Nat
  foreground : Nat
  cursor : Nat
  selection_background : Nat
  selection_foreground : Nat
deriving DecidableEq

/-- Embedding of `ThemeAdapter::new`: selection background defaults to the
cursor color and selection foreground to the background color. -/
def ThemeAdapter.new (background foreground cursor : Nat) : ThemeAdapter :=
  { background := background
    foreground := foreground
    cursor := cursor
    selection_background := cursor
    selection_foreground := background }

/-- Embedding of `ThemeAdapter::dark_default`. -/
def ThemeAdapter.dark_default : ThemeAdapter :=
  ThemeAdapter.new 0x1e1e1e 0xd4d4d4 0xffffff

/-- Embedding of `ThemeAdapter::light_default`. -/
def ThemeAdapter.light_default : ThemeAdapter :=
  ThemeAdapter.new 0xffffff 0x333333 0x000000

/-- Embedding of `ThemeAdapter::with_selection`: overwrites exactly the two
selection colors. -/
def ThemeAdapter.with_selection (t : ThemeAdapter) (background foreground : Nat) : ThemeAdapter :=
  { t with selection_background := background, selection_foreground := foreground }

/-- Modelled from the spec: the escape-sequence parser's state, missing from
src (the source `process` is an empty TODO stub).  States follow section 3
"Parser state" and section 4.1: `Ground`, `Escape`, a CSI-collecting state
carrying the private-mode flag, the completed parameter list and the
parameter currently being accumulated (`none` = absent parameter), an
OSC-string collector (with a sub-state after ESC, awaiting the ST
terminator), and the one-byte charset-select state after `ESC (` / `ESC )`.
DCS passthrough is not modelled (the spec allows dropping it). -/
inductive PState where
  | Ground : PState
  | Escape : PState
  | Csi : Bool → List (Option Nat) → Option Nat → PState
  | OscString : List Nat → PState
  | OscEsc : List Nat → PState
  | CharsetSel : PState
deriving DecidableEq

/-- Modelled from the spec: a color reference, never resolved inside the
grid (section 3 "Color reference"). -/
inductive ColorRef where
  | defaultFg : ColorRef
  | defaultBg : ColorRef
  | indexed : Nat → ColorRef
  | rgb : Nat → Nat → Nat → ColorRef
deriving DecidableEq

/-- Modelled from the spec: the current graphic-rendition attributes
(section 3 "Cell"; the wide-character continuation marker and the invisible
and strikethrough flags are not needed by the verified claims and are
omitted). -/
structure Attrs where
  fg : ColorRef
  bg : ColorRef
  bold : Bool
  italic : Bool
  underline : Bool
  reverse : Bool
deriving DecidableEq

/-- The baseline attributes: default foreground/background, no style flag. -/
def defaultAttrs : Attrs :=
  { fg := ColorRef.defaultFg, bg := ColorRef.defaultBg
    bold := false, italic := false, underline := false, reverse := false }

/-- Modelled from the spec: one character position of the grid. -/
structure Cell where
  ch : Char
  attrs : Attrs
deriving DecidableEq

/-- A blank cell carrying the given attributes (section 4.2: cleared cells
take the current default attributes). -/
def blankCell (a : Attrs) : Cell :=
  { ch := ' ', attrs := a }

/-- Modelled from the spec: the discrete terminal actions the parser emits
(section 4.1 dispatch table).  CSI sequences are dispatched generically as
`Csi final params privFlag` — the parser never substitutes parameter
defaults itself — and OSC strings as their raw payload. -/
inductive Action where
  | Print : Char → Action
  | LineFeed : Action
  | CarriageReturn : Action
  | Tab : Action
  | Backspace : Action
  | Bell : Action
  | Csi : Nat → List (Option Nat) → Bool → Action
  | Osc : List Nat → Action
  | EscDispatch : Nat → Action
deriving DecidableEq

/-- The spec's cap on the number of CSI parameters (section 4.1: "Parameter
count is capped (e.g., 32)"). -/
def maxParams : Nat := 32

/-- The spec's cap on the OSC payload length (section 4.1: "Length is
capped (e.g., 4096 bytes)"). -/
def maxOscLen : Nat := 4096

/-- Pushes a (possibly absent) CSI parameter, dropping it beyond the cap. -/
def pushParam (params : List (Option Nat)) (cur : Option Nat) : List (Option Nat) :=
  if params.length < maxParams then params ++ [cur] else params

/-- Modelled from the spec: one byte-step of the parser state machine with
CAN/SUB handling factored out (section 4.1).  In Ground, printable ASCII
bytes 0x20 to 0x7E become `Print` actions (full UTF-8 decoding is
simplified away: bytes at and above 0x7F are ignored); C0 controls dispatch
immediately; ESC enters `Escape`.  Malformed bytes always return to
`Ground` without an action. -/
def pstepAux : PState → Nat → PState × List Action
  | PState.Ground, b =>
    if b = 0x1B then (PState.Escape, [])
    else if b = 0x0A then (PState.Ground, [Action.LineFeed])
    else if b = 0x0D then (PState.Ground, [Action.CarriageReturn])
    else if b = 0x09 then (PState.Ground, [Action.Tab])
    else if b = 0x08 then (PState.Ground, [Action.Backspace])
    else if b = 0x07 then (PState.Ground, [Action.Bell])
    else if 0x20 ≤ b ∧ b ≤ 0x7E then (PState.Ground, [Action.Print (Char.ofNat b)])
    else (PState.Ground, [])
  | PState.Escape, b =>
    if b = 0x5B then (PState.Csi false [] none, [])
    else if b = 0x5D then (PState.OscString [], [])
    else if b = 0x28 ∨ b = 0x29 then (PState.CharsetSel, [])
    else if b = 0x63 ∨ b = 0x37 ∨ b = 0x38 then (PState.Ground, [Action.EscDispatch b])
    else (PState.Ground, [])
  | PState.CharsetSel, _ => (PState.Ground, [])
  | PState.Csi p ps cur, b =>
    if b = 0x3F ∧ ps = [] ∧ cur = none then (PState.Csi true ps cur, [])
    else if 0x30 ≤ b ∧ b ≤ 0x39 then
      (PState.Csi p ps (some (cur.getD 0 * 10 + (b - 0x30))), [])
    else if b = 0x3B then (PState.Csi p (pushParam ps cur) none, [])
    else if 0x40 ≤ b ∧ b ≤ 0x7E then (PState.Ground, [Action.Csi b (pushParam ps cur) p])
    else (PState.Ground, [])
  | PState.OscString acc, b =>
    if b = 0x07 then (PState.Ground, [Action.Osc acc])
    else if b = 0x1B then (PState.OscEsc acc, [])
    else (PState.OscString (if acc.length < maxOscLen then acc ++ [b] else acc), [])
  | PState.OscEsc acc, b =>
    if b = 0x5C then (PState.Ground, [Action.Osc acc])
    else (PState.Ground, [])

/-- Modelled from the spec: the parser step.  CAN (0x18) and SUB (0x1A)
abort the current sequence from any state, returning to Ground without an
action (section 4.1, last bullet). -/
def pstep (ps : PState) (b : Nat) : PState × List Action :=
  if b = 0x18 ∨ b = 0x1A then (PState.Ground, []) else pstepAux ps b

/-- Modelled from the spec: the terminal grid state (section 3 "Grid",
"Cursor", "Scrollback buffer"): a `rows × cols` cell matrix, cursor
position, current default attributes, single saved-cursor slot (last save
wins), the bounded FIFO scrollback (head = oldest retained line) with its
capacity, and the parser state threaded across `process` calls.  A custom
scroll region and the alternate screen buffer are not modelled (the region
defaults to the full screen). -/
structure Term where
  cols : Nat
  rows : Nat
  capacity : Nat
  grid : List (List Cell)
  curRow : Nat
  curCol : Nat
  attrs : Attrs
  saved : Option (Nat × Nat × Attrs)
  scrollback : List (List Cell)
  pstate : PState
deriving DecidableEq

/-- A row of `cols` blank cells with the given attributes. -/
def blankRow (cols : Nat) (a : Attrs) : List Cell :=
  List.replicate cols (blankCell a)

/-- Modelled from the spec: a fresh terminal of `rows` blank rows of
`cols` cells, cursor at (0,0), empty scrollback of capacity `cap`, parser
in Ground. -/
def initTerm (cols rows cap : Nat) : Term :=
  { cols := cols, rows := rows, capacity := cap
    grid := List.replicate rows (blankRow cols defaultAttrs)
    curRow := 0, curCol := 0
    attrs := defaultAttrs, saved := none
    scrollback := [], pstate := PState.Ground }

/-- Modelled from the spec: appending one evicted row to the bounded FIFO
scrollback; when the capacity is exceeded, the oldest rows (at the head)
are dropped first, whole rows at a time (section 3 "Scrollback buffer"). -/
def pushScrollback (cap : Nat) (sb : List (List Cell)) (line : List Cell) : List (List Cell) :=
  (sb ++ [line]).drop ((sb ++ [line]).length - cap)

/-- Writes to cell (r, c) of the grid; out-of-range writes are no-ops
(`List.set` semantics), so the operation is total. -/
def setCell (grid : List (List Cell)) (r c : Nat) (cell : Cell) : List (List Cell) :=
  grid.set r ((grid.getD r []).set c cell)

/-- Applies `f` to every list element together with its index. -/
def mapWithIdx {α : Type} (f : Nat → α → α) (l : List α) : List α :=
  ((List.range l.length).zip l).map fun p => f p.1 p.2

/-- Modelled from the spec: scrolling the screen up by one line — the top
visible row is pushed into the scrollback and a blank row filled with the
current default attributes appears at the bottom (section 4.2 LineFeed). -/
def scrollUp (st : Term) : Term :=
  match st.grid with
  | [] => st
  | top :: rest =>
    { st with grid := rest ++ [blankRow st.cols st.attrs]
              scrollback := pushScrollback st.capacity st.scrollback top }

/-- Modelled from the spec: LineFeed moves the cursor down one row, or
scrolls when the cursor is already on the last row. -/
def lineFeed (st : Term) : Term :=
  if st.curRow + 1 < st.rows then { st with curRow := st.curRow + 1 }
  else scrollUp st

/-- Modelled from the spec: printing a character writes it with the
current attributes and advances the cursor; past the right edge it
auto-wraps to column 0 of the next row, scrolling if needed (section 4.2).
A zero-width grid ignores prints. -/
def printChar (st : Term) (c : Char) : Term :=
  if st.cols = 0 then st
  else if st.cols ≤ st.curCol then
    let st2 := lineFeed st
    { st2 with grid := setCell st2.grid st2.curRow 0 { ch := c, attrs := st2.attrs }
               curCol := 1 }
  else
    { st with grid := setCell st.grid st.curRow st.curCol { ch := c, attrs := st.attrs }
              curCol := st.curCol + 1 }

/-- First CSI parameter with the movement default: absent or 0 means 1. -/
def param1 (ps : List (Option Nat)) : Nat :=
  match ps.headD none with
  | some n => if n = 0 then 1 else n
  | none => 1

/-- The i-th CSI parameter, with a command-specific default for an absent
parameter (section 4.1 "Numeric semantics"). -/
def paramAt (ps : List (Option Nat)) (i d : Nat) : Nat :=
  match ps.getD i none with
  | some n => n
  | none => d

/-- Whether erase mode `mode` blanks index `i` relative to cursor index
`cur`: mode 0 = cursor to end, 1 = start to cursor, 2 = everything. -/
def eraseHits (mode cur i : Nat) : Bool :=
  if mode = 0 then decide (cur ≤ i)
  else if mode = 1 then decide (i ≤ cur)
  else if mode = 2 then true
  else false

/-- Modelled from the spec: EraseInLine resets the selected cells of the
cursor row to blanks with the current default attributes (section 4.2). -/
def eraseInLine (st : Term) (mode : Nat) : Term :=
  let newRow :=
    mapWithIdx (fun i c => if eraseHits mode st.curCol i then blankCell st.attrs else c)
      (st.grid.getD st.curRow [])
  { st with grid := st.grid.set st.curRow newRow }

/-- Modelled from the spec: EraseInDisplay — mode 2 blanks the whole
screen, mode 0 the cursor row from the cursor plus all rows below, mode 1
all rows above plus the cursor row up to the cursor; unknown modes are
ignored.  The cursor does not move (xterm semantics). -/
def eraseInDisplay (st : Term) (mode : Nat) : Term :=
  if mode = 2 then
    { st with grid := st.grid.map fun row => row.map fun _ => blankCell st.attrs }
  else if mode = 0 then
    let st2 := eraseInLine st 0
    let g :=
      mapWithIdx (fun i row => if st.curRow < i then row.map fun _ => blankCell st.attrs else row)
        st2.grid
    { st2 with grid := g }
  else if mode = 1 then
    let st2 := eraseInLine st 1
    let g :=
      mapWithIdx (fun i row => if i < st.curRow then row.map fun _ => blankCell st.attrs else row)
        st2.grid
    { st2 with grid := g }
  else st

/-- Modelled from the spec: one SGR parameter (section 4.2
SetGraphicRendition); unknown codes are ignored. -/
def applySgrOne (a : Attrs) (n : Nat) : Attrs :=
  if n = 0 then defaultAttrs
  else if n = 1 then { a with bold := true }
  else if n = 3 then { a with italic := true }
  else if n = 4 then { a with underline := true }
  else if n = 7 then { a with reverse := true }
  else if 30 ≤ n ∧ n ≤ 37 then { a with fg := ColorRef.indexed (n - 30) }
  else if n = 39 then { a with fg := ColorRef.defaultFg }
  else if 40 ≤ n ∧ n ≤ 47 then { a with bg := ColorRef.indexed (n - 40) }
  else if n = 49 then { a with bg := ColorRef.defaultBg }
  else if 90 ≤ n ∧ n ≤ 97 then { a with fg := ColorRef.indexed (n - 90 + 8) }
  else if 100 ≤ n ∧ n ≤ 107 then { a with bg := ColorRef.indexed (n - 100 + 8) }
  else a

/-- Modelled from the spec: SGR parameters apply in order, each
independent; an empty parameter list (absent parameter, mapped to 0 at the
grid boundary) resets to the baseline. -/
def applySgr (a : Attrs) (ns : List Nat) : Attrs :=
  if ns = [] then defaultAttrs else ns.foldl applySgrOne a

/-- Modelled from the spec: CSI dispatch in the grid (section 4.2): cursor
movement clamps to the grid bounds, CUP is 1-based, `J`/`K` erase, `m` is
SGR with absent parameters defaulting to 0; private-mode sequences and
unknown finals are ignored (never an error). -/
def applyCsi (st : Term) (final : Nat) (ps : List (Option Nat)) (privFlag : Bool) : Term :=
  if privFlag then st
  else if final = 0x41 then { st with curRow := st.curRow - param1 ps }
  else if final = 0x42 then { st with curRow := min (st.curRow + param1 ps) (st.rows - 1) }
  else if final = 0x43 then { st with curCol := min (st.curCol + param1 ps) (st.cols - 1) }
  else if final = 0x44 then { st with curCol := st.curCol - param1 ps }
  else if final = 0x48 then
    { st with curRow := min (paramAt ps 0 1 - 1) (st.rows - 1)
              curCol := min (paramAt ps 1 1 - 1) (st.cols - 1) }
  else if final = 0x4B then eraseInLine st (paramAt ps 0 0)
  else if final = 0x4A then eraseInDisplay st (paramAt ps 0 0)
  else if final = 0x6D then { st with attrs := applySgr st.attrs (ps.map fun o => o.getD 0) }
  else st

/-- Modelled from the spec: `ESC 7` saves the cursor (single slot, last
save wins), `ESC 8` restores it clamped into bounds, `ESC c` is a full
reset; other escape dispatches are ignored. -/
def applyEsc (st : Term) (b : Nat) : Term :=
  if b = 0x37 then { st with saved := some (st.curRow, st.curCol, st.attrs) }
  else if b = 0x38 then
    match st.saved with
    | some (r, c, a) =>
      { st with curRow := min r (st.rows - 1), curCol := min c (st.cols - 1), attrs := a }
    | none => st
  else if b = 0x63 then
    { st with grid := List.replicate st.rows (blankRow st.cols defaultAttrs)
              curRow := 0, curCol := 0, attrs := defaultAttrs, saved := none }
  else st

/-- Modelled from the spec: the grid's total `apply` function — any action
against any state yields a valid state, out-of-range effects are clamped
or ignored (section 4.2). -/
def applyAction (st : Term) (a : Action) : Term :=
  match a with
  | Action.Print c => printChar st c
  | Action.LineFeed => lineFeed st
  | Action.CarriageReturn => { st with curCol := 0 }
  | Action.Tab => { st with curCol := min ((st.curCol / 8 + 1) * 8) (st.cols - 1) }
  | Action.Backspace => { st with curCol := st.curCol - 1 }
  | Action.Bell => st
  | Action.Csi f ps p => applyCsi st f ps p
  | Action.Osc _ => st
  | Action.EscDispatch b => applyEsc st b

/-- Modelled from the spec: feeding a byte chunk — each byte advances the
parser one step and the emitted actions are applied to the grid in order;
returns the final state together with the full emitted action sequence. -/
def feedActs : Term → List Nat → Term × List Action
  | st, [] => (st, [])
  | st, b :: bs =>
    let pr := pstep st.pstate b
    let st2 := pr.2.foldl applyAction { st with pstate := pr.1 }
    let rest := feedActs st2 bs
    (rest.1, pr.2 ++ rest.2)

/-- Modelled from the spec: `process(data)` — feed the bytes, keep the
resulting state. -/
def termFeed (st : Term) (data : List Nat) : Term :=
  (feedActs st data).1

/-- Feeding a list of consecutive chunks through successive `process`
calls, concatenating the emitted actions. -/
def feedChunks : Term → List (List Nat) → Term × List Action
  | st, [] => (st, [])
  | st, c :: cs =>
    let f := feedActs st c
    let rest := feedChunks f.1 cs
    (rest.1, f.2 ++ rest.2)

/-- The byte string `b"Hello\r\n"` of end-to-end scenario 1. -/
def helloBytes : List Nat := [0x48, 0x65, 0x6C, 0x6C, 0x6F, 0x0D, 0x0A]

/-- The step relation of the structural invariants: the dimensions and the
capacity are untouched, the visible row count stays equal to `rows`, and
the scrollback stays within its capacity. -/
def preserves (st st2 : Term) : Prop :=
  st2.rows = st.rows ∧ st2.capacity = st.capacity ∧
    (st.grid.length = st.rows → st2.grid.length = st2.rows) ∧
    (st.scrollback.length ≤ st.capacity → st2.scrollback.length ≤ st2.capacity)

theorem preserves_refl (st : Term) : preserves st st :=
  ⟨rfl, rfl, fun h => h, fun h => h⟩

theorem preserves_trans {a b c : Term} (h1 : preserves a b) (h2 : preserves b c) :
    preserves a c := by
  obtain ⟨r1, c1, g1, s1⟩ := h1
  obtain ⟨r2, c2, g2, s2⟩ := h2
  exact ⟨r2.trans r1, c2.trans c1, fun h => g2 (g1 h), fun h => s2 (s1 h)⟩

theorem length_mapWithIdx {α : Type} (f : Nat → α → α) (l : List α) :
    (mapWithIdx f l).length = l.length := by
  simp [mapWithIdx]

theorem pushScrollback_length_le (cap : Nat) (sb : List (List Cell)) (line : List Cell) :
    (pushScrollback cap sb line).length ≤ cap := by
  simp [pushScrollback]
  omega

theorem pushScrollback_suffix (cap : Nat) (sb : List (List Cell)) (line : List Cell) :
    List.IsSuffix (pushScrollback cap sb line) (sb ++ [line]) :=
  List.drop_suffix _ _

theorem scrollUp_preserves (st : Term) : preserves st (scrollUp st) := by
  unfold scrollUp
  cases hg : st.grid with
  | nil => exact preserves_refl st
  | cons top rest =>
    refine ⟨rfl, rfl, fun h => ?_, fun _ => ?_⟩
    · rw [hg] at h
      simp at h ⊢
      omega
    · simpa using pushScrollback_length_le st.capacity st.scrollback top

theorem lineFeed_preserves (st : Term) : preserves st (lineFeed st) := by
  unfold lineFeed
  split
  · exact ⟨rfl, rfl, fun h => h, fun h => h⟩
  · exact scrollUp_preserves st

theorem printChar_preserves (st : Term) (c : Char) : preserves st (printChar st c) := by
  unfold printChar
  split
  · exact preserves_refl st
  split
  · refine preserves_trans (lineFeed_preserves st) ⟨rfl, rfl, fun h => ?_, fun h => h⟩
    simpa [setCell] using h
  · refine ⟨rfl, rfl, fun h => ?_, fun h => h⟩
    simpa [setCell] using h

theorem eraseInLine_preserves (st : Term) (mode : Nat) :
    preserves st (eraseInLine st mode) := by
  unfold eraseInLine
  refine ⟨rfl, rfl, fun h => ?_, fun h => h⟩
  simpa using h

theorem eraseInDisplay_preserves (st : Term) (mode : Nat) :
    preserves st (eraseInDisplay st mode) := by
  unfold eraseInDisplay
  split
  · refine ⟨rfl, rfl, fun h => ?_, fun h => h⟩
    simpa using h
  split
  · refine preserves_trans (eraseInLine_preserves st 0) ⟨rfl, rfl, fun h => ?_, fun h => h⟩
    simpa [length_mapWithIdx] using h
  split
  · refine preserves_trans (eraseInLine_preserves st 1) ⟨rfl, rfl, fun h => ?_, fun h => h⟩
    simpa [length_mapWithIdx] using h
  · exact preserves_refl st

theorem applyCsi_preserves (st : Term) (final : Nat) (ps : List (Option Nat)) (p : Bool) :
    preserves st (applyCsi st final ps p) := by
  unfold applyCsi
  split
  · exact preserves_refl st
  split
  · exact ⟨rfl, rfl, fun h => h, fun h => h⟩
  split
  · exact ⟨rfl, rfl, fun h => h, fun h => h⟩
  split
  · exact ⟨rfl, rfl, fun h => h, fun h => h⟩
  split
  · exact ⟨rfl, rfl, fun h => h, fun h => h⟩
  split
  · exact ⟨rfl, rfl, fun h => h, fun h => h⟩
  split
  · exact eraseInLine_preserves st _
  split
  · exact eraseInDisplay_preserves st _
  split
  · exact ⟨rfl, rfl, fun h => h, fun h => h⟩
  · exact preserves_refl st

theorem applyEsc_preserves (st : Term) (b : Nat) : preserves st (applyEsc st b) := by
  unfold applyEsc
  split
  · exact ⟨rfl, rfl, fun h => h, fun h => h⟩
  split
  · cases st.saved with
    | none => exact preserves_refl st
    | some s => exact ⟨rfl, rfl, fun h => h, fun h => h⟩
  split
  · refine ⟨rfl, rfl, fun _ => ?_, fun h => h⟩
    simp
  · exact preserves_refl st

theorem applyAction_preserves (st : Term) (a : Action) : preserves st (applyAction st a) := by
  cases a with
  | Print c => exact printChar_preserves st c
  | LineFeed => exact lineFeed_preserves st
  | CarriageReturn => exact ⟨rfl, rfl, fun h => h, fun h => h⟩
  | Tab => exact ⟨rfl, rfl, fun h => h, fun h => h⟩
  | Backspace => exact ⟨rfl, rfl, fun h => h, fun h => h⟩
  | Bell => exact preserves_refl st
  | Csi f ps p => exact applyCsi_preserves st f ps p
  | Osc o => exact preserves_refl st
  | EscDispatch b => exact applyEsc_preserves st b

theorem foldl_applyAction_preserves (acts : List Action) :
    ∀ st : Term, preserves st (acts.foldl applyAction st) := by
  induction acts with
  | nil => exact fun st => preserves_refl st
  | cons a as ih =>
    intro st
    exact preserves_trans (applyAction_preserves st a) (ih (applyAction st a))

theorem feedActs_preserves (data : List Nat) :
    ∀ st : Term, preserves st (feedActs st data).1 := by
  induction data with
  | nil => exact fun st => preserves_refl st
  | cons b bs ih =>
    intro st
    refine preserves_trans (preserves_trans (b := { st with pstate := (pstep st.pstate b).1 })
      ⟨rfl, rfl, fun h => h, fun h => h⟩ (foldl_applyAction_preserves _ _)) (ih _)

theorem feedActs_append (xs ys : List Nat) :
    ∀ st : Term, feedActs st (xs ++ ys) =
      ((feedActs (feedActs st xs).1 ys).1,
        (feedActs st xs).2 ++ (feedActs (feedActs st xs).1 ys).2) := by
  induction xs with
  | nil => intro st; simp [feedActs]
  | cons b bs ih =>
    intro st
    simp only [List.cons_append, feedActs, List.append_eq, ih, List.append_assoc]

/-- C1 (code evidence): the resize stubs accept degenerate sizes — resizing
an 80×24 `TerminalHandle` to 0 columns stores `(0, 24)` and returns
normally, and `PtyManager::resize` likewise stores the size and returns
`Ok`.  This contradicts the spec's requirement that a 0-column or 0-row
resize be rejected with a caller-visible error leaving the state
unchanged. -/
theorem resize_zero_stored :
    ((TerminalHandle.new 80 24).resize 0 24).size = (0, 24)
    ∧ PtyManager.resize { size := (80, 24) } 0 24 = Except.ok { size := (0, 24) } :=
  ⟨rfl, rfl⟩

/-- C2: feeding `b"Hello\r\n"` into a fresh empty 80×24 terminal with the
cursor at (0,0) leaves visible row 0 equal to "Hello" followed by blank
cells up to column 79, with the cursor at row 1, column 0. -/
theorem hello_scenario :
    (termFeed (initTerm 80 24 10000) helloBytes).grid.getD 0 []
      = "Hello".toList.map (fun c => { ch := c, attrs := defaultAttrs }) ++
          List.replicate 75 (blankCell defaultAttrs)
    ∧ (termFeed (initTerm 80 24 10000) helloBytes).curRow = 1
    ∧ (termFeed (initTerm 80 24 10000) helloBytes).curCol = 0 := by
  refine ⟨by decide, by decide, by decide⟩

/-- C3: for every geometry and every input byte sequence — in particular
one with more line feeds than the scrollback capacity — the retained lines
(scrollback plus visible) never exceed `capacity + rows`; and eviction
always drops the oldest whole rows first: the retained scrollback after a
push is a suffix of the old scrollback followed by the pushed row. -/
theorem scrollback_total_bound :
    (∀ (cols rows cap : Nat) (input : List Nat),
        (termFeed (initTerm cols rows cap) input).scrollback.length +
          (termFeed (initTerm cols rows cap) input).grid.length ≤ cap + rows)
    ∧ ∀ (cap : Nat) (sb : List (List Cell)) (line : List Cell),
        List.IsSuffix (pushScrollback cap sb line) (sb ++ [line]) := by
  constructor
  · intro cols rows cap input
    obtain ⟨hr, hc, hg, hs⟩ := feedActs_preserves input (initTerm cols rows cap)
    unfold termFeed
    have hg2 := hg (by simp [initTerm])
    have hs2 := hs (by simp [initTerm])
    have hr2 : (feedActs (initTerm cols rows cap) input).1.rows = rows := hr
    have hc2 : (feedActs (initTerm cols rows cap) input).1.capacity = cap := hc
    omega
  · intro cap sb line
    exact pushScrollback_suffix cap sb line

/-- C4: chunk-boundary invariance — feeding any byte sequence split into
any consecutive chunks through successive `process` calls produces exactly
the same final terminal state and the same emitted action sequence as one
single call on the concatenation. -/
theorem chunk_invariance :
    ∀ (st : Term) (chunks : List (List Nat)),
      feedChunks st chunks = feedActs st chunks.flatten := by
  intro st chunks
  induction chunks generalizing st with
  | nil => simp [feedChunks, feedActs]
  | cons c cs ih => simp only [feedChunks, ih, List.flatten_cons, feedActs_append]

/-- C5: a `TerminalHandle` built by `new` (and `Default`, which delegates
to `new(80, 24)`) reports a scrollback capacity of exactly 10,000 lines. -/
theorem new_scrollback_capacity :
    ∀ cols rows : Nat,
      (TerminalHandle.new cols rows).scrollback_lines = 10000
      ∧ TerminalHandle.default.scrollback_lines = 10000
      ∧ TerminalHandle.default.size = (80, 24) :=
  fun _ _ => ⟨rfl, rfl, rfl⟩

/-- C6: resizing twice with the same dimensions is idempotent, for both
`TerminalHandle` (state equality) and `PtyManager` (sequencing the second
resize after the first changes nothing). -/
theorem resize_idempotent :
    ∀ (h : TerminalHandle) (cols rows : Nat),
      (h.resize cols rows).resize cols rows = h.resize cols rows
      ∧ ∀ p : PtyManager,
          (PtyManager.resize p cols rows).bind (fun q => PtyManager.resize q cols rows)
            = PtyManager.resize p cols rows :=
  fun _ _ _ => ⟨rfl, fun _ => rfl⟩

/-- C7: the parser never surfaces an error and always recovers to Ground:
CAN and SUB abort any in-progress sequence from every parser state without
emitting an action, and after feeding any byte sequence whatsoever followed
by CAN the parser is back in Ground. -/
theorem malformed_recovery :
    (∀ ps : PState, pstep ps 0x18 = (PState.Ground, []) ∧ pstep ps 0x1A = (PState.Ground, []))
    ∧ ∀ (st : Term) (input : List Nat),
        (termFeed st (input ++ [0x18])).pstate = PState.Ground := by
  constructor
  · intro ps
    exact ⟨rfl, rfl⟩
  · intro st input
    simp [termFeed, feedActs_append, feedActs, pstep]

/-- C8: the stubbed `process` leaves the whole observable state of a
`TerminalHandle` unchanged for every input: same `size`, same
`scrollback_lines`, indeed the identical handle. -/
theorem process_preserves_observables :
    ∀ (h : TerminalHandle) (data : List Nat),
      (h.process data).size = h.size
      ∧ (h.process data).scrollback_lines = h.scrollback_lines
      ∧ h.process data = h :=
  fun _ _ => ⟨rfl, rfl, rfl⟩

/-- C9: for every dimensions, zero included, `TerminalHandle::resize`
succeeds and stores exactly `(cols, rows)` leaving the scrollback setting
unchanged, and `PtyManager::resize` returns `Ok` with the size stored. -/
theorem resize_always_succeeds :
    ∀ (h : TerminalHandle) (cols rows : Nat) (p : PtyManager),
      (h.resize cols rows).size = (cols, rows)
      ∧ (h.resize cols rows).scrollback_lines = h.scrollback_lines
      ∧ PtyManager.resize p cols rows = Except.ok { p with size := (cols, rows) } :=
  fun _ _ _ _ => ⟨rfl, rfl, rfl⟩

/-- C10: `ThemeAdapter::new b f c` defaults the selection background to the
cursor color `c` and the selection foreground to the background color `b`;
`with_selection` overwrites exactly the two selection fields and leaves
background, foreground and cursor unchanged. -/
theorem theme_selection_defaults :
    ∀ b f c : Nat,
      (ThemeAdapter.new b f c).selection_background = c
      ∧ (ThemeAdapter.new b f c).selection_foreground = b
      ∧ ∀ (t : ThemeAdapter) (sb sf : Nat),
          (t.with_selection sb sf).selection_background = sb
          ∧ (t.with_selection sb sf).selection_foreground = sf
          ∧ (t.with_selection sb sf).background = t.background
          ∧ (t.with_selection sb sf).foreground = t.foreground
          ∧ (t.with_selection sb sf).cursor = t.cursor :=
  fun _ _ _ => ⟨rfl, rfl, fun _ _ _ => ⟨rfl, rfl, rfl, rfl, rfl⟩⟩

end SK
